import Mathlib

/-!
# Verification of the dreamBeam geometry-resolution and Jones-grid pipeline

Shallow embedding of the frequency selection / output formatting code of
`scripts/pointing_jones.py` and of the station-geometry ingest code of
`dreambeam/telescopes/geometry_ingest.py`, together with proofs settling
the specification's claims about them.

Frequencies and numeric file fields are modelled as rationals (the Python
code works on floats; none of the properties at stake depends on rounding,
only on comparisons, tolerances and token arrangement).
-/

namespace DreamBeam

/-! ## Frequency selection (`scripts/pointing_jones.py`, `main`)

The single-frequency path of `main` is

```python
if (freq < freqs[0] or freq > freqs[-1]) and freq is not None:
    raise ValueError(...)
...
frqIdx = np.where(np.isclose(freqs, freq, atol=190e3))[0][0]
```

`np.isclose(a, b, atol=190e3)` keeps its default relative tolerance
`rtol = 1e-5` and holds iff `|a - b| <= atol + rtol * |b|`.
`np.where(...)[0][0]` is the first index satisfying the predicate and an
uncaught `IndexError` when there is none.
-/

/-- Default `rtol` of `np.isclose`. -/
def npRtol : ℚ := 1 / 100000

/-- Model of `np.absolute` on a scalar. -/
def npAbs (x : ℚ) : ℚ := if x < 0 then -x else x

/-- Model of `np.isclose(a, b, atol=atol)` with its default relative tolerance:
`|a - b| <= atol + rtol * |b|`. -/
def npIsclose (atol : ℚ) (a b : ℚ) : Bool := npAbs (a - b) ≤ atol + npRtol * npAbs b

/-- Error kinds surfaced by the pipeline of `pointing_jones.main`.
`RangeErr` is the explicit `ValueError` for a frequency outside the band;
`IndexFault` is the uncaught `IndexError` raised by `np.where(...)[0][0]`
on an empty match set (or by `freqs[0]` on an empty axis). -/
inductive PJErr where
  | RangeErr
  | IndexFault
deriving DecidableEq

/-- Embedding of `np.where(np.isclose(freqs, freq, atol=190e3))[0][0]`: the first index of
the frequency axis within `np.isclose` tolerance of `freq`, if any. -/
def selectFreqIdx (freqs : List ℚ) (freq : ℚ) : Option ℕ :=
  freqs.findIdx? (fun g => npIsclose 190000 g freq)

/-- The single-frequency selection path of `main`: the band-extent check of
line 115 (`freq < freqs[0] or freq > freqs[-1]` raises `ValueError`),
then the nearest-channel lookup of line 129. -/
def mainFreqSelect (freqs : List ℚ) (freq : ℚ) : Except PJErr ℕ :=
  match freqs.head?, freqs.getLast? with
  | some f0, some fl =>
    if freq < f0 ∨ fl < freq then .error .RangeErr
    else
      match selectFreqIdx freqs freq with
      | some i => .ok i
      | none => .error .IndexFault
  | _, _ => .error .IndexFault

instance {ε α : Type} [DecidableEq ε] [DecidableEq α] : DecidableEq (Except ε α) := fun a b =>
  match a, b with
  | .ok x, .ok y => decidable_of_iff (x = y) (by simp)
  | .error x, .error y => decidable_of_iff (x = y) (by simp)
  | .ok _, .error _ => .isFalse (by simp)
  | .error _, .ok _ => .isFalse (by simp)

/-! ## Station geometry ingest (`dreambeam/telescopes/geometry_ingest.py`)

The file system is modelled as a partial map from paths (relative to
`SIMOBS_PATH`, the constant directory of the module) to file contents, a
content being the list of its whitespace-tokenized data rows.  `np.loadtxt`
is numpy's (an external collaborator): its scalar decimal-token conversion
is abstracted as a parameter `pf`; what the repository owns — and what is
embedded here — is the five-field row shape of the dtype
`CASA_CFG_DTYPE` (four float fields and an `S5` name field)
(with `S5` truncating the name to five characters), the missing-file error,
the filename construction (Python's `format` renders an absent `None` band
as the literal string `"None"`), the first-match `list.index` lookup, and
the independent alignment read. -/

/-- A partial map from file paths to whitespace-tokenized rows. -/
def FS : Type := String → Option (List (List String))

/-- Error kinds of the ingest layer.  `NotFound` covers a missing file
(`IOError` from `open`) and a station name absent from the configuration
(`ValueError` from `list.index`); `Malformed` is `np.loadtxt` failing to
convert a row; `InvalidArgument` is the error kind the specification
mandates for an unspecified band — included so that its absence from the
code's behaviour can be stated. -/
inductive IngestErr where
  | NotFound
  | Malformed
  | InvalidArgument
deriving DecidableEq

/-- One row of a CASA array-configuration file. -/
structure StationRecord where
  x : ℚ
  y : ℚ
  z : ℚ
  diam : ℚ
  name : String
deriving DecidableEq

/-- Rendering of a possibly-`None` band by the `format` method of `str`. -/
def pyFormatArg : Option String → String
  | some s => s
  | none => "None"

/-- Path of the array configuration file: the `share/simmos` directory of
the telescope, joined with the formatted filename `<telescope>_<band>.cfg`. -/
def arrcfgPath (telescope : String) (band : Option String) : String :=
  telescope ++ "/share/simmos/" ++ telescope ++ "_" ++ pyFormatArg band ++ ".cfg"

/-- One row under `CASA_CFG_DTYPE`: exactly five fields, the first four
converted by the scalar parser `pf`, the name truncated to five characters
by the `S5` dtype. -/
def parseCfgRow (pf : String → Option ℚ) (toks : List String) :
    Option StationRecord :=
  match toks with
  | [xs, ys, zs, ds, ns] =>
    match pf xs, pf ys, pf zs, pf ds with
    | some x, some y, some z, some d => some ⟨x, y, z, d, ns.take 5⟩
    | _, _, _, _ => none
  | _ => none

/-- Embedding of `readarrcfg(telescope, band)`: locate
`<telescope>_<band>.cfg` and parse it with
`np.loadtxt(_, CASA_CFG_DTYPE, unpack=True)`. -/
def readarrcfg (pf : String → Option ℚ) (fs : FS) (telescope : String)
    (band : Option String) : Except IngestErr (List StationRecord) :=
  match fs (arrcfgPath telescope band) with
  | none => .error .NotFound
  | some rows =>
    match rows.mapM (parseCfgRow pf) with
    | none => .error .Malformed
    | some cfg => .ok cfg

/-- Path of the alignment file: the `share/alignment` directory of the
telescope, joined with the formatted filename `<stnid>_<band>.txt`. -/
def alignmentPath (telescope stnid band : String) : String :=
  telescope ++ "/share/alignment/" ++ stnid ++ "_" ++ band ++ ".txt"

/-- Embedding of `readalignment(telescope, stnid, band)`: locate
`<stnid>_<band>.txt` and parse it as an unconstrained numeric matrix with
`np.loadtxt`. -/
def readalignment (pf : String → Option ℚ) (fs : FS)
    (telescope stnid band : String) : Except IngestErr (List (List ℚ)) :=
  match fs (alignmentPath telescope stnid band) with
  | none => .error .NotFound
  | some rows =>
    match rows.mapM (fun r => r.mapM pf) with
    | none => .error .Malformed
    | some m => .ok m

/-- Embedding of `getArrayBandParams(telescope, stnid, band)`: read the array
configuration, take the first index whose name equals `stnid`
(`names.tolist().index(stnid)`, a `ValueError` — `NotFound` — when absent),
extract the position triple there, then independently read the alignment
matrix.  The in-bounds indexing `cfg[idx]?` always succeeds because the
index comes from `findIdx?`. -/
def getArrayBandParams (pf : String → Option ℚ) (fs : FS)
    (telescope stnid band : String) :
    Except IngestErr (List ℚ × List (List ℚ)) :=
  match readarrcfg pf fs telescope (some band) with
  | .error e => .error e
  | .ok cfg =>
    match (cfg.map (fun r => r.name)).findIdx? (fun n => n == stnid) with
    | none => .error .NotFound
    | some idx =>
      match cfg[idx]? with
      | none => .error .NotFound
      | some r =>
        match readalignment pf fs telescope stnid band with
        | .error e => .error e
        | .ok stnRot => .ok ([r.x, r.y, r.z], stnRot)

/-- Embedding of `list_stations(telescope, band=None)`: read the array configuration —
passing the possibly-absent band straight into the filename — and return the
full name column. -/
def list_stations (pf : String → Option ℚ) (fs : FS) (telescope : String)
    (band : Option String := none) : Except IngestErr (List String) :=
  match readarrcfg pf fs telescope band with
  | .error e => .error e
  | .ok cfg => .ok (cfg.map (fun r => r.name))

/-! ## Output serialization (`scripts/pointing_jones.py`)

Times are modelled by their `isoformat()` strings (that is all the print
functions use of them).  Python's `str` rendering of numpy float and complex
scalars, and the `casacore` `quantity(t).get_value()` conversion, belong to
external collaborators and are abstracted as `Renderers`; the serialization
properties at stake are about headers, delimiters and token arrangement. -/

/-- A complex scalar, by real and imaginary part. -/
structure Cplx where
  re : ℚ
  im : ℚ
deriving DecidableEq, Inhabited

/-- A 2×2 Jones matrix `J[·,·]`. -/
structure JonesMat where
  m00 : Cplx
  m01 : Cplx
  m10 : Cplx
  m11 : Cplx
deriving DecidableEq, Inhabited

/-- The scalar renderings used by the print functions: `strF` is Python's
`str` of a float, `strC` Python's `str` of a numpy complex scalar (one
combined token), `quantGetValue` is `str(quantity(t).get_value())`. -/
structure Renderers where
  strF : ℚ → String
  strC : Cplx → String
  quantGetValue : String → String

/-- Embedding of `printJonesFreq(timespy, Jnf, freq)`: the header line
`"Time, Freq, J11, J12, J21, J22"`, then for each time sample the
comma-joined row `[t.isoformat(), freq, Jnf[ti,0,0], Jnf[ti,0,1],
Jnf[ti,1,0], Jnf[ti,1,1]]` under `str`. -/
def printJonesFreq (rd : Renderers) (timespy : List String)
    (Jnf : List JonesMat) (freq : ℚ) : List String :=
  "Time, Freq, J11, J12, J21, J22" ::
  (List.range timespy.length).map (fun ti =>
    String.intercalate ","
      [timespy.getD ti "", rd.strF freq,
       rd.strC ((Jnf.getD ti default).m00), rd.strC ((Jnf.getD ti default).m01),
       rd.strC ((Jnf.getD ti default).m10), rd.strC ((Jnf.getD ti default).m11)])

/-- Embedding of `paccompf(Jij)`: the real part under `str`, a single
space, then the imaginary part under `str` — two separate decimal tokens. -/
def paccompf (rd : Renderers) (J : Cplx) : String :=
  rd.strF J.re ++ " " ++ rd.strF J.im

/-- The two output formats `printAllJones` recognizes (`frmt` argument,
default `csv`). -/
inductive Frmt where
  | csv
  | pac
deriving DecidableEq

/-- Embedding of `printAllJones(timespy, freqs, Jn, frmt)`: a CSV-only header, then one
row per (time, frequency) pair — time-outer, frequency-inner — where `csv`
joins `[t.isoformat(), freq, J00, J01, J10, J11]` with commas and `pac`
joins `[quantity(t.isoformat()).get_value(), freq, paccompf J00, ...,
paccompf J11]` with spaces. -/
def printAllJones (rd : Renderers) (timespy : List String) (freqs : List ℚ)
    (Jn : List (List JonesMat)) (frmt : Frmt) : List String :=
  (match frmt with
   | .csv => ["Time, Freq, J00, J01, J10, J11"]
   | .pac => []) ++
  (List.range timespy.length).flatMap (fun ti =>
    freqs.enum.map (fun p =>
      match frmt with
      | .csv =>
        String.intercalate ","
          [timespy.getD ti "", rd.strF p.2,
           rd.strC (((Jn.getD p.1 []).getD ti default).m00),
           rd.strC (((Jn.getD p.1 []).getD ti default).m01),
           rd.strC (((Jn.getD p.1 []).getD ti default).m10),
           rd.strC (((Jn.getD p.1 []).getD ti default).m11)]
      | .pac =>
        String.intercalate " "
          [rd.quantGetValue (timespy.getD ti ""), rd.strF p.2,
           paccompf rd (((Jn.getD p.1 []).getD ti default).m00),
           paccompf rd (((Jn.getD p.1 []).getD ti default).m01),
           paccompf rd (((Jn.getD p.1 []).getD ti default).m10),
           paccompf rd (((Jn.getD p.1 []).getD ti default).m11)]))

/-- The `print` path of `main`, after the external generator has produced
the grid (`timespy`, `freqs`, `Jn`): the band-extent check of line 115, then
either the full-grid serialization (no pinned frequency; the `frmt` flag is
passed through) or the single-frequency slice `Jnf = Jn[frqIdx]` printed by
`printJonesFreq` — to which no format flag is passed. -/
def mainPrint (rd : Renderers) (timespy : List String) (freqs : List ℚ)
    (Jn : List (List JonesMat)) (freq : Option ℚ) (frmt : Frmt) :
    Except PJErr (List String) :=
  match freqs.head?, freqs.getLast? with
  | some f0, some fl =>
    match freq with
    | some f =>
      if f < f0 ∨ fl < f then .error .RangeErr
      else
        match selectFreqIdx freqs f with
        | some frqIdx =>
          .ok (printJonesFreq rd timespy (Jn.getD frqIdx []) f)
        | none => .error .IndexFault
    | none => .ok (printAllJones rd timespy freqs Jn frmt)
  | _, _ => .error .IndexFault

/-- Concrete renderers for the witnesses (any comma-free, space-free scalar
renderings do). -/
def rdTag : Renderers where
  strF _ := "f"
  strC _ := "c"
  quantGetValue t := "q" ++ t

/-- A trivial scalar parser for concrete witnesses: numpy's decimal grammar
is external, and none of the properties at stake depends on the parsed
values. -/
def pfZero : String → Option ℚ := fun _ => some 0

/-- A small concrete file system for the witnesses: one LOFAR HBA
configuration file whose name column contains a duplicate, and one
alignment file. -/
def sampleFS : FS := fun path =>
  if path = "LOFAR/share/simmos/LOFAR_HBA.cfg" then
    some [["0", "0", "0", "1", "SE607"], ["2", "2", "2", "1", "UK608"],
          ["3", "3", "3", "1", "SE607"]]
  else if path = "LOFAR/share/alignment/SE607_HBA.txt" then
    some [["1", "0", "0"], ["0", "1", "0"], ["0", "0", "1"]]
  else none

/-! ### Basic facts about the selection primitives -/

theorem npAbs_nonneg (x : ℚ) : 0 ≤ npAbs x := by
  unfold npAbs; split <;> linarith

theorem npIsclose_of_dist_le (atol a b : ℚ) (h : npAbs (a - b) ≤ atol) :
    npIsclose atol a b = true := by
  have hb := npAbs_nonneg b
  have : (0 : ℚ) ≤ npRtol * npAbs b := by
    have : (0 : ℚ) ≤ npRtol := by norm_num [npRtol]
    exact mul_nonneg this hb
  simp only [npIsclose, decide_eq_true_eq]
  linarith

theorem npIsclose_self (atol x : ℚ) (h : 0 ≤ atol) : npIsclose atol x x = true := by
  apply npIsclose_of_dist_le
  simp [npAbs]
  linarith

/-- Unfolding of `mainFreqSelect` on a nonempty frequency axis. -/
theorem mainFreqSelect_eq (freqs : List ℚ) (freq f0 fl : ℚ)
    (h0 : freqs.head? = some f0) (hl : freqs.getLast? = some fl) :
    mainFreqSelect freqs freq =
      if freq < f0 ∨ fl < freq then .error .RangeErr
      else
        match selectFreqIdx freqs freq with
        | some i => .ok i
        | none => .error .IndexFault := by
  unfold mainFreqSelect
  rw [h0, hl]

/-! ### Claim C2 -/

/-- C2: for every requested frequency strictly below `freqs[0]` or strictly
above `freqs[-1]`, the single-frequency pipeline fails with the band-extent
error kind (`RangeErr`).  The statement quantifies over every axis with the
given first and last channels, so the outcome is independent of the interior
channels: the failure happens before any channel-distance computation can
influence it. -/
theorem c2_out_of_band_rangeError (freqs : List ℚ) (freq f0 fl : ℚ)
    (h0 : freqs.head? = some f0) (hl : freqs.getLast? = some fl)
    (hout : freq < f0 ∨ fl < freq) :
    mainFreqSelect freqs freq = .error .RangeErr := by
  rw [mainFreqSelect_eq freqs freq f0 fl h0 hl, if_pos hout]

/-- Witness for C2 at a concrete input. -/
theorem c2_out_of_band_rangeError_witness :
    mainFreqSelect [100, 200, 300] 99 = .error .RangeErr :=
  c2_out_of_band_rangeError [100, 200, 300] 99 100 300 rfl (by simp)
    (Or.inl (by norm_num))

/-! ### Claim C1 -/

/-- C1: evaluation of the code at the failing inputs.  On the axis
`[0, 1000000]` the in-range request `500000` has no channel within the
190 000 Hz tolerance (both distances are `500000`), and the pipeline dies with
the uncaught index fault of `np.where(...)[0][0]` — there is no
NoMatchingChannel error kind anywhere in the code.  Moreover on the axis
`[0, 200000]` the in-range request `150000` resolves to index 0 (the first
channel within tolerance, at distance `150000`) even though index 1 is
strictly closer (distance `50000`): the selection is first-match, not
closest-match. -/
theorem c1_noMatchingChannel_eval :
    mainFreqSelect [0, 1000000] 500000 = .error .IndexFault ∧
    mainFreqSelect [0, 200000] 150000 = .ok 0 := by
  constructor <;>
    norm_num [mainFreqSelect, selectFreqIdx, List.findIdx?, npIsclose, npAbs,
      npRtol]

/-! ### Claim C3 -/

/-- C3 counterexample: on the axis `[0, 100000]`, requesting the channel value
`freqs[1] = 100000` itself returns index 0, not index 1 — channel 0 is within
the tolerance (`100000 ≤ 190000 + 10⁻⁵·100000`) and the code takes the first
match. -/
theorem c3_idempotence_cex :
    [(0 : ℚ), 100000][1]? = some 100000 ∧
    mainFreqSelect [0, 100000] 100000 = .ok 0 := by
  refine ⟨rfl, ?_⟩
  norm_num [mainFreqSelect, selectFreqIdx, List.findIdx?, npIsclose, npAbs,
    npRtol]

/-- C3 amended: for an ascending frequency axis, requesting the value
`freqs[i]` itself returns the index of the *first* channel within the
`np.isclose` tolerance of `freqs[i]`; this is `i` exactly when no earlier
channel lies within tolerance — in particular whenever the channel spacing
exceeds the tolerance. -/
theorem c3_idempotence_amended (freqs : List ℚ) (hsort : freqs.Sorted (· ≤ ·))
    (i : ℕ) (hi : i < freqs.length)
    (hnoe : ∀ j, (hj : j < i) → npIsclose 190000 freqs[j] freqs[i] = false) :
    mainFreqSelect freqs freqs[i] = .ok i := by
  have hne : freqs ≠ [] := List.ne_nil_of_length_pos (by omega)
  have h0 := List.head?_eq_head hne
  have hl := List.getLast?_eq_getLast freqs hne
  rw [mainFreqSelect_eq freqs _ _ _ h0 hl]
  have hhead : freqs.head hne ≤ freqs[i] := by
    have h := hsort.rel_get_of_le (a := ⟨0, by omega⟩) (b := ⟨i, hi⟩)
      (by simp)
    rw [List.get_mk_zero] at h
    simpa using h
  have hlast : freqs[i] ≤ freqs.getLast hne := by
    have h := hsort.rel_get_of_le (a := ⟨i, hi⟩)
      (b := ⟨freqs.length - 1, by omega⟩) (by simp; omega)
    rw [List.getLast_eq_getElem]
    simpa using h
  rw [if_neg (by push_neg; constructor <;> linarith)]
  have hsel : selectFreqIdx freqs freqs[i] = some i := by
    rw [selectFreqIdx, List.findIdx?_eq_some_iff_getElem]
    refine ⟨hi, npIsclose_self 190000 freqs[i] (by norm_num), ?_⟩
    intro j hj
    simp [hnoe j hj]
  rw [hsel]

/-- Witness for the amended C3 at a concrete input. -/
theorem c3_idempotence_amended_witness :
    mainFreqSelect [(0 : ℚ), 200000] 200000 = .ok 1 := by
  have h := c3_idempotence_amended [(0 : ℚ), 200000]
    (by norm_num [List.sorted_cons]) 1 (by norm_num)
    (fun j hj => by
      have hj0 : j = 0 := by omega
      subst hj0
      norm_num [npIsclose, npAbs, npRtol])
  simpa using h

/-! ### Claim C4 -/

/-- C4 counterexample: on the one-channel axis `[0]`, requesting
`freqs[0] + 189999 = 189999` does *not* succeed — it exceeds `freqs[-1]` and
fails with the band-extent error.  And on the axis `[60000000, 61000000]`,
requesting `freqs[0] + 190001` silently resolves to index 0 itself: the
`np.isclose` tolerance is `190000 + 10⁻⁵·|request| ≈ 190602 Hz`, not a purely
absolute 190 000 Hz. -/
theorem c4_tolerance_cex :
    mainFreqSelect [0] (0 + 189999) = .error .RangeErr ∧
    mainFreqSelect [60000000, 61000000] (60000000 + 190001) = .ok 0 := by
  constructor <;>
    norm_num [mainFreqSelect, selectFreqIdx, List.findIdx?, npIsclose, npAbs,
      npRtol]

/-- C4 amended: for an ascending frequency axis with last channel `fl`,
(a) requesting `freqs[i] + 189999` resolves to index `i` provided the request
does not exceed `fl` and no earlier channel lies within the `np.isclose`
tolerance of the request; (b) requesting `freqs[i] + 190001` can resolve to
index `i` itself (see the counterexample) because of the relative part
`10⁻⁵·|request|` of the tolerance, but never does so when the request has
magnitude below `100000 Hz`, for then the relative part cannot cover the
1 Hz deficit. -/
theorem c4_tolerance_amended (freqs : List ℚ) (hsort : freqs.Sorted (· ≤ ·))
    (i : ℕ) (hi : i < freqs.length) (fl : ℚ)
    (hfl : freqs.getLast? = some fl) :
    ((freqs[i] + 189999 ≤ fl) →
      (∀ j, (hj : j < i) →
        npIsclose 190000 freqs[j] (freqs[i] + 189999) = false) →
      mainFreqSelect freqs (freqs[i] + 189999) = .ok i) ∧
    (npAbs (freqs[i] + 190001) < 100000 →
      mainFreqSelect freqs (freqs[i] + 190001) ≠ .ok i) := by
  have hne : freqs ≠ [] := List.ne_nil_of_length_pos (by omega)
  have h0 := List.head?_eq_head hne
  have hhead : freqs.head hne ≤ freqs[i] := by
    have h := hsort.rel_get_of_le (a := ⟨0, by omega⟩) (b := ⟨i, hi⟩) (by simp)
    rw [List.get_mk_zero] at h
    simpa using h
  constructor
  · intro hub hnoe
    rw [mainFreqSelect_eq freqs _ _ _ h0 hfl]
    rw [if_neg (by push_neg; constructor <;> linarith)]
    have hsel : selectFreqIdx freqs (freqs[i] + 189999) = some i := by
      rw [selectFreqIdx, List.findIdx?_eq_some_iff_getElem]
      refine ⟨hi, ?_, ?_⟩
      · apply npIsclose_of_dist_le
        have : freqs[i] - (freqs[i] + 189999) = -189999 := by ring
        rw [this]
        norm_num [npAbs]
      · intro j hj
        simp [hnoe j hj]
    rw [hsel]
  · intro habs heq
    rw [mainFreqSelect_eq freqs _ _ _ h0 hfl] at heq
    by_cases hc : freqs[i] + 190001 < freqs.head hne ∨ fl < freqs[i] + 190001
    · rw [if_pos hc] at heq
      exact absurd heq (by simp)
    · rw [if_neg hc] at heq
      cases hsel : selectFreqIdx freqs (freqs[i] + 190001) with
      | none =>
        rw [hsel] at heq
        exact absurd heq (by simp)
      | some k =>
        rw [hsel] at heq
        have hk : k = i := by simpa using heq
        subst hk
        rw [selectFreqIdx, List.findIdx?_eq_some_iff_getElem] at hsel
        obtain ⟨h1, h2, -⟩ := hsel
        have h2' : npIsclose 190000 freqs[k] (freqs[k] + 190001) = true := h2
        simp only [npIsclose, decide_eq_true_eq] at h2'
        have harith : npAbs (freqs[k] - (freqs[k] + 190001)) = 190001 := by
          have he : freqs[k] - (freqs[k] + 190001) = -190001 := by ring
          rw [he]
          norm_num [npAbs]
        rw [harith] at h2'
        have hlt : npRtol * npAbs (freqs[k] + 190001) < 1 := by
          have hm := mul_lt_mul_of_pos_left habs
            (show (0 : ℚ) < npRtol by norm_num [npRtol])
          calc npRtol * npAbs (freqs[k] + 190001)
              < npRtol * 100000 := hm
            _ = 1 := by norm_num [npRtol]
        linarith

/-- Witness for the amended C4 at concrete inputs: part (a) on the axis
`[0, 200000]` with `i = 0`, part (b) on the axis `[-200000, -100000]` with
`i = 1` (request magnitude `90001 < 100000`). -/
theorem c4_tolerance_amended_witness :
    mainFreqSelect [(0 : ℚ), 200000] (0 + 189999) = .ok 0 ∧
    mainFreqSelect [(-200000 : ℚ), -100000] (-100000 + 190001) ≠ .ok 1 := by
  constructor
  · have h := (c4_tolerance_amended [(0 : ℚ), 200000]
      (by norm_num [List.sorted_cons]) 0 (by norm_num) 200000 (by simp)).1
    have h2 := h (by norm_num) (fun j hj => absurd hj (by omega))
    simpa using h2
  · have h := (c4_tolerance_amended [(-200000 : ℚ), -100000]
      (by norm_num [List.sorted_cons]) 1 (by norm_num) (-100000) (by simp)).2
    have h2 := h (by norm_num [npAbs])
    simpa using h2

/-! ### Facts about the ingest primitives -/

theorem parseCfgRow_name (pf : String → Option ℚ) (toks : List String)
    (r : StationRecord) (h : parseCfgRow pf toks = some r) :
    r.name = (toks.getD 4 "").take 5 := by
  unfold parseCfgRow at h
  split at h
  next xs ys zs ds ns =>
    split at h
    next =>
      simp only [Option.some.injEq] at h
      subst h
      simp [List.getD]
    next => simp at h
  next => simp at h

theorem mapM_parseCfgRow_names (pf : String → Option ℚ)
    (rows : List (List String)) (cfg : List StationRecord)
    (h : rows.mapM (parseCfgRow pf) = some cfg) :
    cfg.map (fun r => r.name) =
      rows.map (fun toks => (toks.getD 4 "").take 5) := by
  induction rows generalizing cfg with
  | nil =>
    simp only [List.mapM_nil, Option.pure_def, Option.some.injEq] at h
    subst h
    simp
  | cons t ts ih =>
    rw [List.mapM_cons] at h
    cases hr : parseCfgRow pf t with
    | none => rw [hr] at h; simp at h
    | some r =>
      rw [hr] at h
      cases hts : ts.mapM (parseCfgRow pf) with
      | none => rw [hts] at h; simp at h
      | some cs =>
        rw [hts] at h
        simp at h
        subst h
        simp only [List.map_cons]
        rw [ih cs hts]
        rw [parseCfgRow_name pf t r hr]

theorem readarrcfg_ne_invalidArgument (pf : String → Option ℚ) (fs : FS)
    (telescope : String) (band : Option String) :
    readarrcfg pf fs telescope band ≠ .error .InvalidArgument := by
  unfold readarrcfg
  split
  · simp
  · split <;> simp

theorem string_take_of_length_le (s : String) (n : ℕ) (h : s.length ≤ n) :
    s.take n = s := by
  rw [String.take_eq]
  cases s with
  | mk data =>
    simp only [String.length] at h
    congr 1
    exact List.take_of_length_le h

/-! ### Facts about serialization primitives -/

theorem intercalate_go_append (s : String) (l : List String) (x y : String) :
    String.intercalate.go (x ++ y) s l = x ++ String.intercalate.go y s l := by
  induction l generalizing y with
  | nil => rw [String.intercalate.go, String.intercalate.go]
  | cons a t ih =>
    rw [String.intercalate.go, String.intercalate.go]
    have hassoc : x ++ y ++ s ++ a = x ++ (y ++ s ++ a) := by
      simp [String.append_assoc]
    rw [hassoc]
    exact ih (y ++ s ++ a)

theorem intercalate_cons_cons (s a b : String) (l : List String) :
    String.intercalate s (a :: b :: l) = a ++ s ++ String.intercalate s (b :: l) := by
  show String.intercalate.go a s (b :: l) = a ++ s ++ String.intercalate.go b s l
  rw [String.intercalate.go, String.append_assoc]
  have h := intercalate_go_append s l (a ++ s) b
  rw [String.append_assoc] at h
  exact h

theorem intercalate_singleton (s a : String) :
    String.intercalate s [a] = a := rfl

theorem flatMap_length_uniform {α β : Type} (l : List α) (f : α → List β)
    (m : ℕ) (hm : ∀ a ∈ l, (f a).length = m) :
    (l.flatMap f).length = l.length * m := by
  induction l with
  | nil => simp
  | cons a t ih =>
    rw [List.flatMap_cons, List.length_append,
      hm a (List.mem_cons_self a t),
      ih (fun x hx => hm x (List.mem_cons_of_mem a hx)), List.length_cons]
    ring

theorem flatMap_getElem_uniform {α β : Type} (l : List α) (f : α → List β)
    (m : ℕ) (hm : ∀ a ∈ l, (f a).length = m) (i j : ℕ)
    (hi : i < l.length) (hj : j < m) :
    (l.flatMap f)[i * m + j]? = (f l[i])[j]? := by
  induction l generalizing i with
  | nil => simp at hi
  | cons a t ih =>
    rw [List.flatMap_cons]
    cases i with
    | zero =>
      rw [List.getElem?_append_left
        (by rw [hm a (List.mem_cons_self a t)]; omega)]
      simp
    | succ k =>
      have hlen : (f a).length = m := hm a (List.mem_cons_self a t)
      have hle : (f a).length ≤ (k + 1) * m + j := by
        rw [hlen]
        have h1 : m ≤ (k + 1) * m := Nat.le_mul_of_pos_left m (Nat.succ_pos k)
        omega
      rw [List.getElem?_append_right hle, hlen]
      have hidx : (k + 1) * m + j - m = k * m + j := by
        rw [Nat.succ_mul]
        omega
      rw [hidx]
      have hk : k < t.length := by
        simp only [List.length_cons] at hi
        omega
      have h := ih (fun x hx => hm x (List.mem_cons_of_mem a hx)) k hk
      simpa using h

/-! ### Claim C5 -/

/-- C5: with the array configuration parsed to `cfg`, a station name absent
from the name column makes `getArrayBandParams` fail with `NotFound`
(`list.index` raising `ValueError`); and any successful result implies the
station name is present in the column *and* the alignment matrix was
actually read — no partially-populated geometry is ever returned. -/
theorem c5_geometry_notFound (pf : String → Option ℚ) (fs : FS)
    (telescope stnid band : String) (cfg : List StationRecord)
    (hcfg : readarrcfg pf fs telescope (some band) = .ok cfg) :
    (stnid ∉ cfg.map (fun r => r.name) →
      getArrayBandParams pf fs telescope stnid band = .error .NotFound) ∧
    (∀ pos rot,
      getArrayBandParams pf fs telescope stnid band = .ok (pos, rot) →
      stnid ∈ cfg.map (fun r => r.name) ∧
      readalignment pf fs telescope stnid band = .ok rot) := by
  constructor
  · intro hnm
    unfold getArrayBandParams
    simp only [hcfg]
    have hnone :
        (cfg.map (fun r => r.name)).findIdx? (fun n => n == stnid) = none := by
      rw [List.findIdx?_eq_none_iff]
      intro x hx
      simp only [beq_eq_false_iff_ne, ne_eq]
      intro hxe
      subst hxe
      exact hnm hx
    simp only [hnone]
  · intro pos rot hok
    unfold getArrayBandParams at hok
    simp only [hcfg] at hok
    cases hidx : (cfg.map (fun r => r.name)).findIdx? (fun n => n == stnid) with
    | none => simp [hidx] at hok
    | some idx =>
      simp only [hidx] at hok
      rw [List.findIdx?_eq_some_iff_getElem] at hidx
      obtain ⟨hlt, hbeq, -⟩ := hidx
      have hgets : (cfg.map (fun r => r.name))[idx] = stnid := by
        simpa using hbeq
      have hmem : stnid ∈ cfg.map (fun r => r.name) := by
        rw [← hgets]
        exact List.getElem_mem hlt
      cases hr : cfg[idx]? with
      | none => simp [hr] at hok
      | some r =>
        simp only [hr] at hok
        cases hal : readalignment pf fs telescope stnid band with
        | error e => simp [hal] at hok
        | ok m =>
          simp only [hal, Except.ok.injEq, Prod.mk.injEq] at hok
          exact ⟨hmem, by rw [hok.2]⟩

/-- Witness for C5: on the sample file system, the absent station `DE601`
yields `NotFound`. -/
theorem c5_geometry_notFound_witness :
    getArrayBandParams pfZero sampleFS "LOFAR" "DE601" "HBA" =
      .error .NotFound := by
  have h := (c5_geometry_notFound pfZero sampleFS "LOFAR" "DE601" "HBA"
    [⟨0, 0, 0, 0, "SE607"⟩, ⟨0, 0, 0, 0, "UK608"⟩, ⟨0, 0, 0, 0, "SE607"⟩]
    rfl).1
  exact h (by decide)

/-! ### Claim C6 -/

/-- C6: the code does not fail fast on an unspecified band.  `list_stations`
passes `band=None` into the filename format string, producing the literal filename
`LOFAR_None.cfg`, and proceeds to read it — surfacing `NotFound` when (as in
any real installation) no such file exists.  No file system and no scalar
parser can make it return the `InvalidArgument` kind the specification
mandates. -/
theorem c6_unspecified_band_eval :
    arrcfgPath "LOFAR" none = "LOFAR/share/simmos/LOFAR_None.cfg" ∧
    (∀ (pf : String → Option ℚ) (fs : FS),
      fs "LOFAR/share/simmos/LOFAR_None.cfg" = none →
      list_stations pf fs "LOFAR" none = .error .NotFound) ∧
    (∀ (pf : String → Option ℚ) (fs : FS),
      list_stations pf fs "LOFAR" none ≠ .error .InvalidArgument) := by
  refine ⟨rfl, ?_, ?_⟩
  · intro pf fs hmiss
    unfold list_stations readarrcfg
    simp only [show arrcfgPath "LOFAR" none =
      "LOFAR/share/simmos/LOFAR_None.cfg" from rfl, hmiss]
  · intro pf fs
    unfold list_stations
    cases hr : readarrcfg pf fs "LOFAR" none with
    | error e =>
      have hne := readarrcfg_ne_invalidArgument pf fs "LOFAR" none
      rw [hr] at hne
      have he : e ≠ .InvalidArgument := fun h => hne (by rw [h])
      simp only [hr]
      simp [he]
    | ok cfg => simp [hr]

/-- Witness for C6 on the empty file system. -/
theorem c6_unspecified_band_eval_witness :
    list_stations pfZero (fun _ => none) "LOFAR" none = .error .NotFound ∧
    list_stations pfZero (fun _ => none) "LOFAR" none ≠
      .error .InvalidArgument :=
  ⟨c6_unspecified_band_eval.2.1 pfZero (fun _ => none) rfl,
   c6_unspecified_band_eval.2.2 pfZero (fun _ => none)⟩

/-! ### Claim C9 -/

/-- C9: for a valid (telescope, band) — configuration file present, every row
well-formed, names within the documented five-character limit so that the
`S5` truncation is the identity — `list_stations` returns exactly the name
column of the file, in file order, duplicates included. -/
theorem c9_list_stations_names (pf : String → Option ℚ) (fs : FS)
    (telescope : String) (band : Option String) (rows : List (List String))
    (cfg : List StationRecord)
    (hfile : fs (arrcfgPath telescope band) = some rows)
    (hparse : rows.mapM (parseCfgRow pf) = some cfg)
    (hlen : ∀ toks ∈ rows, (toks.getD 4 "").length ≤ 5) :
    list_stations pf fs telescope band =
      .ok (rows.map (fun toks => toks.getD 4 "")) := by
  unfold list_stations readarrcfg
  simp only [hfile, hparse]
  congr 1
  rw [mapM_parseCfgRow_names pf rows cfg hparse]
  apply List.map_congr_left
  intro t ht
  exact string_take_of_length_le _ _ (hlen t ht)

/-- Witness for C9: the sample configuration file lists `SE607` twice and the
result keeps both occurrences, in file order. -/
theorem c9_list_stations_names_witness :
    list_stations pfZero sampleFS "LOFAR" (some "HBA") =
      .ok ["SE607", "UK608", "SE607"] := by
  have h := c9_list_stations_names pfZero sampleFS "LOFAR" (some "HBA")
    [["0", "0", "0", "1", "SE607"], ["2", "2", "2", "1", "UK608"],
     ["3", "3", "3", "1", "SE607"]]
    [⟨0, 0, 0, 0, "SE607"⟩, ⟨0, 0, 0, 0, "UK608"⟩, ⟨0, 0, 0, 0, "SE607"⟩]
    rfl rfl (by decide)
  simpa using h

/-! ### Claim C7 -/

/-- C7 counterexample: with one time sample `"T"` and the tag renderers
(`str(float) = "f"`, `str(complex) = "c"`), the serialized row is
`"T,f,c,c,c,c"` — six comma-separated fields with the pinned frequency as
the second one, not the five fields (time, J11, J12, J21, J22) the claim
asserts. -/
theorem c7_row_fields_cex :
    (printJonesFreq rdTag ["T"] [default] 42)[1]? = some "T,f,c,c,c,c" ∧
    rdTag.strF 42 = "f" ∧
    "T,f,c,c,c,c" ≠ String.intercalate "," ["T", "c", "c", "c", "c"] := by
  refine ⟨rfl, rfl, ?_⟩
  decide

/-- C7 amended: when a single frequency is pinned, every serialized row
after the header consists of exactly the six comma-joined fields
(time, freq, J11, J12, J21, J22): the pinned frequency *is* included, as the
second field, matching the header `Time, Freq, J11, J12, J21, J22`. -/
theorem c7_row_fields_amended (rd : Renderers) (timespy : List String)
    (Jnf : List JonesMat) (freq : ℚ) (ti : ℕ) (hti : ti < timespy.length) :
    (printJonesFreq rd timespy Jnf freq)[ti + 1]? =
      some (String.intercalate ","
        [timespy.getD ti "", rd.strF freq,
         rd.strC ((Jnf.getD ti default).m00),
         rd.strC ((Jnf.getD ti default).m01),
         rd.strC ((Jnf.getD ti default).m10),
         rd.strC ((Jnf.getD ti default).m11)]) := by
  unfold printJonesFreq
  rw [List.getElem?_cons_succ, List.getElem?_map, List.getElem?_range hti]
  rfl

/-- Witness for the amended C7 at a concrete input. -/
theorem c7_row_fields_amended_witness :
    (printJonesFreq rdTag ["T", "U"] [default, default] 42)[1 + 1]? =
      some "U,f,c,c,c,c" := by
  have h := c7_row_fields_amended rdTag ["T", "U"] [default, default] 42 1
    (by norm_num)
  simpa using h

/-! ### Claim C8 -/

/-- C8: full-grid serialization.  In `pac` format there is no header (the
output has exactly one row per (time, frequency) pair), rows are joined with
single spaces, and every complex entry contributes *two* separate decimal
tokens (real part then imaginary part), so a row is the space-join of ten
scalar tokens.  In `csv` format a header line is emitted at index 0 and each
complex entry is a single token, a row being the comma-join of six tokens. -/
theorem c8_pac_csv_format (rd : Renderers) (timespy : List String)
    (freqs : List ℚ) (Jn : List (List JonesMat)) (ti fi : ℕ)
    (hti : ti < timespy.length) (hfi : fi < freqs.length) :
    (printAllJones rd timespy freqs Jn .pac).length =
      timespy.length * freqs.length ∧
    (printAllJones rd timespy freqs Jn .csv).length =
      1 + timespy.length * freqs.length ∧
    (printAllJones rd timespy freqs Jn .csv)[0]? =
      some "Time, Freq, J00, J01, J10, J11" ∧
    (printAllJones rd timespy freqs Jn .pac)[ti * freqs.length + fi]? =
      some (String.intercalate " "
        [rd.quantGetValue (timespy.getD ti ""), rd.strF (freqs.getD fi 0),
         rd.strF (((Jn.getD fi []).getD ti default).m00).re,
         rd.strF (((Jn.getD fi []).getD ti default).m00).im,
         rd.strF (((Jn.getD fi []).getD ti default).m01).re,
         rd.strF (((Jn.getD fi []).getD ti default).m01).im,
         rd.strF (((Jn.getD fi []).getD ti default).m10).re,
         rd.strF (((Jn.getD fi []).getD ti default).m10).im,
         rd.strF (((Jn.getD fi []).getD ti default).m11).re,
         rd.strF (((Jn.getD fi []).getD ti default).m11).im]) ∧
    (printAllJones rd timespy freqs Jn .csv)[ti * freqs.length + fi + 1]? =
      some (String.intercalate ","
        [timespy.getD ti "", rd.strF (freqs.getD fi 0),
         rd.strC (((Jn.getD fi []).getD ti default).m00),
         rd.strC (((Jn.getD fi []).getD ti default).m01),
         rd.strC (((Jn.getD fi []).getD ti default).m10),
         rd.strC (((Jn.getD fi []).getD ti default).m11)]) := by
  have huni : ∀ frmt : Frmt, ∀ a ∈ List.range timespy.length,
      ((fun ti => freqs.enum.map (fun p =>
        match frmt with
        | .csv =>
          String.intercalate ","
            [timespy.getD ti "", rd.strF p.2,
             rd.strC (((Jn.getD p.1 []).getD ti default).m00),
             rd.strC (((Jn.getD p.1 []).getD ti default).m01),
             rd.strC (((Jn.getD p.1 []).getD ti default).m10),
             rd.strC (((Jn.getD p.1 []).getD ti default).m11)]
        | .pac =>
          String.intercalate " "
            [rd.quantGetValue (timespy.getD ti ""), rd.strF p.2,
             paccompf rd (((Jn.getD p.1 []).getD ti default).m00),
             paccompf rd (((Jn.getD p.1 []).getD ti default).m01),
             paccompf rd (((Jn.getD p.1 []).getD ti default).m10),
             paccompf rd (((Jn.getD p.1 []).getD ti default).m11)])) a).length
        = freqs.length := by
    intro frmt a ha
    simp [List.enum_length]
  refine ⟨?_, ?_, ?_, ?_, ?_⟩
  · unfold printAllJones
    rw [List.nil_append]
    rw [flatMap_length_uniform _ _ freqs.length (huni .pac)]
    simp
  · unfold printAllJones
    rw [List.length_append]
    rw [flatMap_length_uniform _ _ freqs.length (huni .csv)]
    simp
  · unfold printAllJones
    rw [List.getElem?_append_left (by simp)]
    rfl
  · unfold printAllJones
    rw [List.nil_append]
    rw [flatMap_getElem_uniform _ _ freqs.length (huni .pac) ti fi
      (by simpa using hti) hfi]
    rw [List.getElem_range, List.getElem?_map, List.getElem?_enum,
      List.getElem?_eq_getElem hfi]
    rw [List.getD_eq_getElem freqs 0 hfi]
    simp only [paccompf, intercalate_cons_cons, intercalate_singleton,
      String.append_assoc]
    rfl
  · unfold printAllJones
    rw [List.getElem?_append_right (by simp)]
    simp only [List.length_singleton]
    have hidx : ti * freqs.length + fi + 1 - 1 = ti * freqs.length + fi := by
      omega
    rw [hidx]
    rw [flatMap_getElem_uniform _ _ freqs.length (huni .csv) ti fi
      (by simpa using hti) hfi]
    rw [List.getElem_range, List.getElem?_map, List.getElem?_enum,
      List.getElem?_eq_getElem hfi]
    rw [List.getD_eq_getElem freqs 0 hfi]
    rfl

/-- Witness for C8 at a concrete grid (one time sample, two channels). -/
theorem c8_pac_csv_format_witness :
    (printAllJones rdTag ["T"] [1, 2] [[default], [default]] .pac).length
        = 1 * 2 ∧
    (printAllJones rdTag ["T"] [1, 2] [[default], [default]] .csv).length
        = 1 + 1 * 2 ∧
    (printAllJones rdTag ["T"] [1, 2] [[default], [default]] .csv)[0]? =
      some "Time, Freq, J00, J01, J10, J11" ∧
    (printAllJones rdTag ["T"] [1, 2] [[default], [default]]
        .pac)[0 * 2 + 1]? =
      some (String.intercalate " "
        ["qT", "f", "f", "f", "f", "f", "f", "f", "f", "f"]) ∧
    (printAllJones rdTag ["T"] [1, 2] [[default], [default]]
        .csv)[0 * 2 + 1 + 1]? =
      some (String.intercalate "," ["T", "f", "c", "c", "c", "c"]) := by
  have h := c8_pac_csv_format rdTag ["T"] [1, 2] [[default], [default]] 0 1
    (by norm_num) (by norm_num)
  simpa using h

/-! ### Claim C10 -/

/-- C10: with a pinned frequency and the print action, the emitted output is
independent of the format flag — the single-frequency branch of `main` calls
`printJonesFreq`, to which `frmt` is never passed — and on success the
output is the comma-separated serialization headed by
`"Time, Freq, J11, J12, J21, J22"`.  The flag reaches a serializer only on
the full-grid (`freq is None`) path. -/
theorem c10_format_independent (rd : Renderers) (timespy : List String)
    (freqs : List ℚ) (Jn : List (List JonesMat)) (f : ℚ)
    (frmt1 frmt2 : Frmt) :
    mainPrint rd timespy freqs Jn (some f) frmt1 =
      mainPrint rd timespy freqs Jn (some f) frmt2 ∧
    ∀ lines, mainPrint rd timespy freqs Jn (some f) frmt1 = .ok lines →
      lines[0]? = some "Time, Freq, J11, J12, J21, J22" := by
  constructor
  · unfold mainPrint
    cases freqs.head? <;> cases freqs.getLast? <;> rfl
  · intro lines hok
    unfold mainPrint at hok
    cases h0 : freqs.head? with
    | none => rw [h0] at hok; cases freqs.getLast? <;> simp at hok
    | some f0 =>
      rw [h0] at hok
      cases hl : freqs.getLast? with
      | none => rw [hl] at hok; simp at hok
      | some fl =>
        rw [hl] at hok
        simp only at hok
        split at hok
        · simp at hok
        · split at hok
          · simp only [Except.ok.injEq] at hok
            subst hok
            simp [printJonesFreq]
          · simp at hok

/-- Witness for C10 at a concrete input: `csv` versus `pac` on a pinned
in-band frequency. -/
theorem c10_format_independent_witness :
    mainPrint rdTag ["T"] [60000000] [[default]] (some 60000000) .csv =
      mainPrint rdTag ["T"] [60000000] [[default]] (some 60000000) .pac ∧
    (printJonesFreq rdTag ["T"] [default] 60000000)[0]? =
      some "Time, Freq, J11, J12, J21, J22" := by
  have h := c10_format_independent rdTag ["T"] [60000000] [[default]]
    60000000 .csv .pac
  refine ⟨h.1, ?_⟩
  apply h.2
  norm_num [mainPrint, selectFreqIdx, List.findIdx?, npIsclose, npAbs, npRtol]

end DreamBeam
